import Mathlib

/-!
Verification of the auto-commit hook orchestrator (Rust sources:
`main.rs`, `types.rs`, `committer.rs`, `git_ops.rs`,
`commit_message_generator.rs`).

The development shallowly embeds the program:

* Rust `String`/`&str` values are `List Char` (Unicode scalar values, which
  is what Rust `char` is); byte-level concerns (UTF-8 validity of diff line
  content, byte-indexed slicing) are handled by an explicit UTF-8 decoder
  over `List Nat` byte lists and by `takeBytes`, which consumes a byte
  budget char by char and fails exactly when the requested byte index is
  not a character boundary (the condition under which Rust `&s[..i]`
  panics).
* Identifiers, branch names and paths are Lean `String`s.
* The git repository is an abstract state (`RepoState`): current branch,
  an association list of branch tips, a head-commit id, and the diff
  contents the next staging operations would produce.  `Committer`'s
  handlers are state transformers that additionally emit a trace of the
  git operations they perform, in order, so that temporal claims (which
  operation happened before which) are statable.
* Fallible external facts (the outcome of spawning the generator command,
  the lines libgit2 delivers for the staged diff) are inputs to the
  embedded functions.
-/

namespace AutoCommit

/-! ## Character classes

`rustIsWhitespace` is Rust `char::is_whitespace`, i.e. the Unicode
`White_Space` property (the 25 code points below).  The Rust `regex`
crate's `\s` class in its default Unicode mode denotes the same set, so
the single predicate serves both `str::trim` and the regex model. -/

def rustIsWhitespace (c : Char) : Bool :=
  let n := c.toNat
  n = 0x20 || (0x09 ≤ n && n ≤ 0x0D) || n = 0x85 || n = 0xA0 || n = 0x1680 ||
  (0x2000 ≤ n && n ≤ 0x200A) || n = 0x2028 || n = 0x2029 || n = 0x202F ||
  n = 0x205F || n = 0x3000

/-- Rust `str::trim`: strip `White_Space` characters from both ends. -/
def rustTrim (l : List Char) : List Char :=
  ((l.dropWhile rustIsWhitespace).reverse.dropWhile rustIsWhitespace).reverse

/-! ## Byte-indexed slicing (`git_ops.rs`, `get_staged_diff`)

Rust `str::len` is the UTF-8 byte length; `&s[..i]` takes the first `i`
bytes and panics when `i` does not fall on a character boundary.
`takeBytes l n` walks the characters of `l` consuming their UTF-8 sizes
from the budget `n`; it returns `none` exactly when the budget runs out in
the middle of a character (or past the end), i.e. exactly when Rust
slicing would panic. -/

def utf8Len (l : List Char) : Nat := (l.map Char.utf8Size).sum

def takeBytes : List Char → Nat → Option (List Char)
  | _, 0 => some []
  | [], _ + 1 => none
  | c :: cs, n + 1 =>
      if c.utf8Size ≤ n + 1 then (takeBytes cs (n + 1 - c.utf8Size)).map (c :: ·)
      else none

/-- The marker appended by `get_staged_diff` when the trimmed diff exceeds
5000 bytes.  In the Rust source the format string is
`"{}\\n\\n[... truncated ...]"`, whose `\\n` escapes denote a literal
backslash followed by the letter `n` — NOT a newline.  The embedded marker
therefore starts with the four characters backslash, `n`, backslash, `n`. -/
def truncMarker : List Char :=
  '\\' :: 'n' :: '\\' :: 'n' :: "[... truncated ...]".toList

/-- The marker the claims expect: two actual newline characters followed by
`[... truncated ...]`.  Stated from the spec's words, for comparison with
`truncMarker` (the one the source produces). -/
def newlineMarker : List Char :=
  '\n' :: '\n' :: "[... truncated ...]".toList

/-- The trim-and-truncate tail of `get_staged_diff` (`git_ops.rs` lines
60–65): trim the assembled diff text, and if its byte length exceeds 5000
take the first 5000 bytes and append `truncMarker`.  The result is `none`
when the byte slice `&diff_text[..5000]` would panic (byte 5000 inside a
multi-byte character). -/
def diffTrimTruncate (raw : List Char) : Option (List Char) :=
  if 5000 < utf8Len (rustTrim raw) then
    (takeBytes (rustTrim raw) 5000).map (· ++ truncMarker)
  else some (rustTrim raw)

/-! ## UTF-8 decoding (`std::str::from_utf8`)

`get_staged_diff` assembles the diff from the raw byte content of each
line libgit2 reports, keeping only lines whose bytes are valid UTF-8.
`utf8DecodeOne` decodes one scalar value by the exact UTF-8 rules
(shortest form enforced, surrogates excluded): it mirrors the validation
`std::str::from_utf8` performs. -/

def isUtf8Cont (b : Nat) : Bool := 0x80 ≤ b && b ≤ 0xBF

def utf8Decode? : List Nat → Option (List Char)
  | [] => some []
  | b :: rest =>
      if b ≤ 0x7F then (utf8Decode? rest).map (Char.ofNat b :: ·)
      else if 0xC2 ≤ b && b ≤ 0xDF then
        match rest with
        | c1 :: r =>
            if isUtf8Cont c1 then
              (utf8Decode? r).map (Char.ofNat ((b - 0xC0) * 0x40 + (c1 - 0x80)) :: ·)
            else none
        | [] => none
      else if b = 0xE0 then
        match rest with
        | c1 :: c2 :: r =>
            if (0xA0 ≤ c1 && c1 ≤ 0xBF) && isUtf8Cont c2 then
              (utf8Decode? r).map
                (Char.ofNat ((b - 0xE0) * 0x1000 + (c1 - 0x80) * 0x40 + (c2 - 0x80)) :: ·)
            else none
        | _ => none
      else if 0xE1 ≤ b && b ≤ 0xEC || b = 0xEE || b = 0xEF then
        match rest with
        | c1 :: c2 :: r =>
            if isUtf8Cont c1 && isUtf8Cont c2 then
              (utf8Decode? r).map
                (Char.ofNat ((b - 0xE0) * 0x1000 + (c1 - 0x80) * 0x40 + (c2 - 0x80)) :: ·)
            else none
        | _ => none
      else if b = 0xED then
        match rest with
        | c1 :: c2 :: r =>
            if (0x80 ≤ c1 && c1 ≤ 0x9F) && isUtf8Cont c2 then
              (utf8Decode? r).map
                (Char.ofNat ((b - 0xE0) * 0x1000 + (c1 - 0x80) * 0x40 + (c2 - 0x80)) :: ·)
            else none
        | _ => none
      else if b = 0xF0 then
        match rest with
        | c1 :: c2 :: c3 :: r =>
            if (0x90 ≤ c1 && c1 ≤ 0xBF) && isUtf8Cont c2 && isUtf8Cont c3 then
              (utf8Decode? r).map
                (Char.ofNat ((b - 0xF0) * 0x40000 + (c1 - 0x80) * 0x1000 +
                  (c2 - 0x80) * 0x40 + (c3 - 0x80)) :: ·)
            else none
        | _ => none
      else if 0xF1 ≤ b && b ≤ 0xF3 then
        match rest with
        | c1 :: c2 :: c3 :: r =>
            if isUtf8Cont c1 && isUtf8Cont c2 && isUtf8Cont c3 then
              (utf8Decode? r).map
                (Char.ofNat ((b - 0xF0) * 0x40000 + (c1 - 0x80) * 0x1000 +
                  (c2 - 0x80) * 0x40 + (c3 - 0x80)) :: ·)
            else none
        | _ => none
      else if b = 0xF4 then
        match rest with
        | c1 :: c2 :: c3 :: r =>
            if (0x80 ≤ c1 && c1 ≤ 0x8F) && isUtf8Cont c2 && isUtf8Cont c3 then
              (utf8Decode? r).map
                (Char.ofNat ((b - 0xF0) * 0x40000 + (c1 - 0x80) * 0x1000 +
                  (c2 - 0x80) * 0x40 + (c3 - 0x80)) :: ·)
            else none
        | _ => none
      else none

/-! ## Diff assembly (`git_ops.rs`, `get_staged_diff` lines 49–58)

libgit2's `diff.print` delivers one callback per diff line, carrying an
origin character and the raw byte content of the line.  The closure keeps
a line only when `std::str::from_utf8` succeeds on its content; lines with
origin `'+'`, `'-'` or `' '` are prefixed with that origin character, all
other lines (file headers, hunk headers, …) are appended unprefixed. -/

structure DiffLine where
  origin : Char
  content : List Nat
deriving DecidableEq

def buildDiffText (lines : List DiffLine) : List Char :=
  lines.foldl
    (fun acc l =>
      match utf8Decode? l.content with
      | some content =>
          acc ++ (if l.origin = '+' ∨ l.origin = '-' ∨ l.origin = ' '
                  then l.origin :: content else content)
      | none => acc)
    []

/-- The full observable behaviour of `get_staged_diff`, with the diff lines
libgit2 reports as input: assemble the text, trim it, truncate at 5000
bytes (`none` = the byte slice panics). -/
def get_staged_diff (lines : List DiffLine) : Option (List Char) :=
  diffTrimTruncate (buildDiffText lines)

/-- Per-line rendering used to state what `get_staged_diff` keeps: `none`
for a line whose content is not valid UTF-8, otherwise the line's decoded
content with the origin marker prefixed for `+`/`-`/space lines. -/
def renderLine (l : DiffLine) : Option (List Char) :=
  (utf8Decode? l.content).map
    (fun content =>
      if l.origin = '+' ∨ l.origin = '-' ∨ l.origin = ' '
      then l.origin :: content else content)

/-- The claim's characterisation of the assembled diff: exactly the
UTF-8-decodable lines, rendered in order. -/
def specLineRendering (lines : List DiffLine) : List Char :=
  (lines.filterMap renderLine).flatten

/-! ## Event model (`types.rs`)

`SessionStartSource` carries a `#[serde(other)]` fallback variant
`Unknown`; `ToolName` does NOT — its ten variants are exactly the strings
serde will accept for `tool_name`. -/

inductive SessionStartSource where
  | clear | compact | resume | startup | unknown
deriving DecidableEq

inductive ToolName where
  | task | bash | glob | grep | read | edit | multiEdit | write
  | webFetch | webSearch
deriving DecidableEq

structure ToolInput where
  file_path : String
deriving DecidableEq

structure ToolResponse where
  success : Bool
deriving DecidableEq

inductive HookEvent where
  | sessionStart (session_id transcript_path cwd : String)
      (source : Option SessionStartSource)
  | postToolUse (session_id transcript_path cwd : String)
      (tool_name : ToolName) (tool_input : ToolInput)
      (tool_response : ToolResponse)
deriving DecidableEq

/-! ## JSON decoding (serde semantics for the derives in `types.rs`)

`HookEvent` is internally tagged by `hook_event_name`; unknown object
fields are ignored; a missing required field is a parse error.
`source` is an `Option` with `#[serde(default)]`: absent or `null` decode
to `none`.  `ToolResponse.success` defaults to `true` when absent.
Decoding failure is `Option.none` (serde's `Err`). -/

inductive Json where
  | str (s : String)
  | num (n : Int)
  | bool (b : Bool)
  | null
  | arr (elems : List Json)
  | obj (fields : List (String × Json))

def getField : List (String × Json) → String → Option Json
  | [], _ => none
  | (k, v) :: rest, key => if k = key then some v else getField rest key

def asString : Json → Option String
  | .str s => some s
  | _ => none

def reqString (fields : List (String × Json)) (key : String) : Option String :=
  (getField fields key).bind asString

def decodeSource : Json → Option SessionStartSource
  | .str v =>
      some (if v = "clear" then .clear
            else if v = "compact" then .compact
            else if v = "resume" then .resume
            else if v = "startup" then .startup
            else .unknown)
  | _ => none

def decodeOptSource (fields : List (String × Json)) :
    Option (Option SessionStartSource) :=
  match getField fields "source" with
  | none => some none
  | some .null => some none
  | some j => (decodeSource j).map some

def decodeToolName : Json → Option ToolName
  | .str v =>
      if v = "Task" then some .task
      else if v = "Bash" then some .bash
      else if v = "Glob" then some .glob
      else if v = "Grep" then some .grep
      else if v = "Read" then some .read
      else if v = "Edit" then some .edit
      else if v = "MultiEdit" then some .multiEdit
      else if v = "Write" then some .write
      else if v = "WebFetch" then some .webFetch
      else if v = "WebSearch" then some .webSearch
      else none
  | _ => none

def decodeToolInput : Json → Option ToolInput
  | .obj fields => (reqString fields "file_path").map (⟨·⟩)
  | _ => none

def decodeToolResponse : Json → Option ToolResponse
  | .obj fields =>
      match getField fields "success" with
      | none => some ⟨true⟩
      | some (.bool b) => some ⟨b⟩
      | some _ => none
  | _ => none

def decodeHookEvent : Json → Option HookEvent
  | .obj fields =>
      match getField fields "hook_event_name" with
      | some (.str "SessionStart") => do
          let sid ← reqString fields "session_id"
          let tp ← reqString fields "transcript_path"
          let cwd ← reqString fields "cwd"
          let src ← decodeOptSource fields
          some (.sessionStart sid tp cwd src)
      | some (.str "PostToolUse") => do
          let sid ← reqString fields "session_id"
          let tp ← reqString fields "transcript_path"
          let cwd ← reqString fields "cwd"
          let tn ← (getField fields "tool_name").bind decodeToolName
          let ti ← (getField fields "tool_input").bind decodeToolInput
          let tr ← (getField fields "tool_response").bind decodeToolResponse
          some (.postToolUse sid tp cwd tn ti tr)
      | _ => none
  | _ => none

/-! ## Entry dispatch (`main.rs` lines 56–73)

`main` reads stdin and tries `from_str::<HookEvent>`; on success the
event is handled, on failure the whole raw input is treated as diff
content and a message is generated for it.  `parsed` is the JSON parse of
the raw input (`none` when the input is not JSON at all). -/

inductive MainMode where
  | hookRun (e : HookEvent)
  | fallback (raw : String)
deriving DecidableEq

def mainMode (raw : String) (parsed : Option Json) : MainMode :=
  match parsed.bind decodeHookEvent with
  | some e => .hookRun e
  | none => .fallback raw

/-! ## Message generation (`commit_message_generator.rs`)

The external command's behaviour is an input: `ExecResult` is the value of
`Command::output()` — `spawnFailed` for `Err` from `.ok()`, otherwise the
exit status and the (lossily decoded) stdout text.  The embedded TOML
config is not part of `src/`, so the default commit message is a
parameter. -/

structure ProcOutput where
  success : Bool
  stdout : List Char

inductive ExecResult where
  | spawnFailed
  | ran (out : ProcOutput)

/-- `try_generate`: `.ok()`, `.filter(status.success())`,
`.map(trim of lossy stdout)`, `.filter(non-empty)`. -/
def try_generate (run : ExecResult) : Option (List Char) :=
  match run with
  | .spawnFailed => none
  | .ran out =>
      if out.success then
        let message := rustTrim out.stdout
        if message = [] then none else some message
      else none

/-- Rust `message.lines().next().unwrap_or("")`: the characters up to the
first `'\n'`, with one trailing `'\r'` removed when the line was in fact
terminated by a line ending (`\r\n`); a final line without a terminator
keeps its `'\r'`. -/
def firstLine (l : List Char) : List Char :=
  let line := l.takeWhile (· ≠ '\n')
  if line.length < l.length then
    if line.getLast? = some '\r' then line.dropLast else line
  else line

/-- The regex `^[a-z]+:\s.+` (default Unicode mode), applied via
`is_match`.  Since `':'` is not in `[a-z]` the greedy `[a-z]+` is forced to
the maximal ASCII-lowercase run; `\s` is one `White_Space` character; `.`
is any character other than `'\n'`, and `is_match` needs only one of the
`.+` repetitions to succeed. -/
def conventionalCommitMatch (l : List Char) : Bool :=
  let letters := l.takeWhile (fun c => 0x61 ≤ c.toNat && c.toNat ≤ 0x7A)
  decide (letters ≠ []) &&
    (match l.drop letters.length with
     | ':' :: w :: c :: _ => rustIsWhitespace w && c ≠ '\n'
     | _ => false)

/-- `generate`: on generation failure the configured default message; on
success the candidate unchanged when its trimmed first line looks like a
conventional-commit header, otherwise the default, a blank line, then the
candidate.  (Here, unlike the truncation marker in `git_ops.rs`, the Rust
format string uses real `\n` newlines.) -/
def generate (default_commit_message : List Char) (run : ExecResult) :
    List Char :=
  match try_generate run with
  | some message =>
      if conventionalCommitMatch (rustTrim (firstLine message)) then message
      else default_commit_message ++ '\n' :: '\n' :: message
  | none => default_commit_message

/-! ## Path resolution (`committer.rs`, `handle_file_commit` lines 85–92)

Rust `Path` semantics on Unix, as far as `is_absolute` and `strip_prefix`
need them: a path is a list of components — a root marker for a leading
`/`, a leading `.` component for relative paths that start with one,
`..` components, and normal segments.  Empty segments and interior `.`
segments are dropped.  `strip_prefix` succeeds when the base's components
are a leading subsequence of the path's, returning the remaining
components; `to_string_lossy` renders them joined by `/`. -/

inductive PathComp where
  | rootDir
  | curDir
  | parentDir
  | normal (s : String)
deriving DecidableEq

def segComp (s : String) : PathComp :=
  if s = ".." then .parentDir else .normal s

def splitSlash (l : List Char) : List (List Char) :=
  match l with
  | [] => [[]]
  | c :: rest =>
      let r := splitSlash rest
      if c = '/' then [] :: r
      else match r with
           | seg :: segs => (c :: seg) :: segs
           | [] => [[c]]

def pathComps (p : String) : List PathComp :=
  let segs := (splitSlash p.toList).map (fun s => String.mk s)
  let segs := segs.filter (· ≠ "")
  if p.toList.head? = some '/' then
    .rootDir :: (segs.filter (· ≠ ".")).map segComp
  else
    match segs with
    | "." :: rest => .curDir :: (rest.filter (· ≠ ".")).map segComp
    | _ => (segs.filter (· ≠ ".")).map segComp

def renderComp : PathComp → String
  | .rootDir => "/"
  | .curDir => "."
  | .parentDir => ".."
  | .normal s => s

def pathIsAbsolute (p : String) : Bool := p.toList.head? = some '/'

/-- `Path::strip_prefix(base)` followed by `to_string_lossy`. -/
def stripPathBase (base p : String) : Option String :=
  let b := pathComps base
  let s := pathComps p
  if b.isPrefixOf s then
    some (String.intercalate "/" ((s.drop b.length).map renderComp))
  else none

/-- The path actually staged by `handle_file_commit`: absolute paths are
made relative to `cwd` by prefix stripping, falling back to the original
string when stripping fails; relative paths are used as-is. -/
def resolvePath (cwd file_path : String) : String :=
  if pathIsAbsolute file_path then
    match stripPathBase cwd file_path with
    | some r => r
    | none => file_path
  else file_path

/-! ## Committer orchestration (`committer.rs`)

The repository is an abstract state.  `branchTips` associates branch names
with the commit id each branch ref points at; `headCommit` is the commit
HEAD resolves to; `nextId` numbers the commit that `create_commit` would
create next.  What the next `get_staged_diff` returns after staging is an
input: `worktreeDiff` for `stage_all_files`, `fileDiff p` for
`stage_file p` (git's actual diffing is external to this program).
`stagedDiff` is the value `get_staged_diff` returns in the current state;
after a commit the index equals the committed tree, so it becomes empty.

Each handler returns the new state together with the ordered trace of git
operations it performed, which makes the ordering claims statable. -/

structure RepoState where
  currentBranch : String
  branchTips : List (String × Nat)
  headCommit : Nat
  nextId : Nat
  stagedDiff : List Char
  worktreeDiff : List Char
  fileDiff : String → List Char

inductive GitOp where
  | queryBranch
  | setCwd (dir : String)
  | stageAll
  | stageFileOp (path : String)
  | queryDiff
  | commitOp (message : List Char)
  | branchOp (name : String)
deriving DecidableEq

def lookupTip (tips : List (String × Nat)) (name : String) : Option Nat :=
  (tips.find? (fun p => p.1 = name)).map (·.2)

def setTip (tips : List (String × Nat)) (name : String) (id : Nat) :
    List (String × Nat) :=
  tips.map (fun p => if p.1 = name then (name, id) else p)

/-- `git_ops::get_current_branch`: the short name of HEAD's branch. -/
def get_current_branch (s : RepoState) : String := s.currentBranch

/-- `git_ops::stage_all_files`: `index.add_all(["."], ...)`. -/
def stage_all_files (s : RepoState) : RepoState :=
  { s with stagedDiff := s.worktreeDiff }

/-- `git_ops::stage_file`: `index.add_path(file_path)`. -/
def stage_file (s : RepoState) (path : String) : RepoState :=
  { s with stagedDiff := s.fileDiff path }

/-- `git_ops::create_commit`: write the index as a tree and commit it on
HEAD with the current head commit as parent; the branch HEAD points at
advances to the new commit and the staged diff becomes empty. -/
def create_commit (s : RepoState) : RepoState :=
  { s with
    headCommit := s.nextId
    nextId := s.nextId + 1
    branchTips := setTip s.branchTips s.currentBranch s.nextId
    stagedDiff := [] }

/-- Timestamp as `jiff::Zoned::now()` provides it; `strftime` with
`%Y%m%d_%H%M%S` zero-pads the year to four digits and the rest to two. -/
structure Timestamp where
  year : Nat
  month : Nat
  day : Nat
  hour : Nat
  minute : Nat
  second : Nat
deriving DecidableEq

def natDigitsAux : Nat → Nat → List Char
  | 0, _ => []
  | fuel + 1, n =>
      if n < 10 then [Char.ofNat (0x30 + n)]
      else natDigitsAux fuel (n / 10) ++ [Char.ofNat (0x30 + n % 10)]

def zeroPad (width n : Nat) : String :=
  let digits := natDigitsAux (n + 1) n
  String.mk (List.replicate (width - digits.length) '0' ++ digits)

def formatTimestamp (ts : Timestamp) : String :=
  zeroPad 4 ts.year ++ zeroPad 2 ts.month ++ zeroPad 2 ts.day ++ "_" ++
  zeroPad 2 ts.hour ++ zeroPad 2 ts.minute ++ zeroPad 2 ts.second

def sessionBranchName (session_id : String) (ts : Timestamp) : String :=
  "session/" ++ session_id ++ "_" ++ formatTimestamp ts

/-- `git_ops::create_session_branch`: create branch
`session/{session_id}_{timestamp}` at the current head commit, point HEAD
at it and check it out. -/
def create_session_branch (s : RepoState) (session_id : String)
    (ts : Timestamp) : RepoState :=
  let name := sessionBranchName session_id ts
  { s with
    branchTips := (name, s.headCommit) :: s.branchTips
    currentBranch := name }

/-- The `matches!(source_value, Clear | Compact | Resume)` test guarding
the end-of-session commit. -/
def isSessionEndSource : Option SessionStartSource → Bool
  | some .clear => true
  | some .compact => true
  | some .resume => true
  | _ => false

/-- The `matches!(current_branch.as_str(), "main" | "master" | "develop")`
test guarding session-branch creation. -/
def isTrunk (branch : String) : Bool :=
  branch = "main" || branch = "master" || branch = "develop"

/-- The `ToolName::Edit | ToolName::MultiEdit | ToolName::Write` pattern of
the acting `PostToolUse` arm. -/
def isActingTool : ToolName → Bool
  | .edit => true
  | .multiEdit => true
  | .write => true
  | _ => false

/-- `Committer::handle_session_end`: change directory, stage everything,
and if the staged diff is non-empty generate a message for it and commit.
`gen` is the result of `CommitMessageGenerator::new(language)?.generate`
on a given diff (its external command run is folded into the function). -/
def handle_session_end (gen : List Char → List Char) (cwd : String)
    (s : RepoState) : RepoState × List GitOp :=
  let s1 := stage_all_files s
  let d := s1.stagedDiff
  if d ≠ [] then
    (create_commit s1,
     [.setCwd cwd, .stageAll, .queryDiff, .queryDiff, .commitOp (gen d)])
  else
    (s1, [.setCwd cwd, .stageAll, .queryDiff])

/-- `Committer::handle_file_commit`: change directory, resolve the edited
path, stage exactly it, and commit unless the staged diff is empty. -/
def handle_file_commit (gen : List Char → List Char) (cwd file_path : String)
    (s : RepoState) : RepoState × List GitOp :=
  let rp := resolvePath cwd file_path
  let s1 := stage_file s rp
  let d := s1.stagedDiff
  if d = [] then
    (s1, [.setCwd cwd, .stageFileOp rp, .queryDiff])
  else
    (create_commit s1,
     [.setCwd cwd, .stageFileOp rp, .queryDiff, .commitOp (gen d)])

/-- `Committer::handle_event`.  For `SessionStart`: query the current
branch, run the end-of-session commit when `source` signals the end of the
previous session, then create the session branch when the current branch
is a trunk name.  For `PostToolUse`: act only for `Edit`/`MultiEdit`/
`Write` with a successful tool response; every other combination is the
wildcard no-op arm. -/
def handle_event (gen : List Char → List Char) (ts : Timestamp)
    (ev : HookEvent) (s : RepoState) : RepoState × List GitOp :=
  match ev with
  | .sessionStart session_id _ cwd source =>
      let current := get_current_branch s
      let (s1, log1) :=
        if isSessionEndSource source then handle_session_end gen cwd s
        else (s, [])
      let (s2, log2) :=
        if isTrunk current then
          (create_session_branch s1 session_id ts,
           [GitOp.branchOp (sessionBranchName session_id ts)])
        else (s1, [])
      (s2, GitOp.queryBranch :: (log1 ++ log2))
  | .postToolUse _ _ cwd tool_name tool_input tool_response =>
      if isActingTool tool_name && tool_response.success then
        handle_file_commit gen cwd tool_input.file_path s
      else (s, [])

/-! ## Example inputs shared by the witnesses -/

/-- A small healthy repository on `main`, with staging material. -/
def exampleState : RepoState :=
  { currentBranch := "main"
    branchTips := [("main", 0)]
    headCommit := 0
    nextId := 1
    stagedDiff := []
    worktreeDiff := ['x']
    fileDiff := fun _ => ['y'] }

def exampleTimestamp : Timestamp := ⟨2025, 7, 1, 12, 30, 5⟩

/-! ## Helper lemmas -/

theorem dropWhile_eq_self_of_not {p : Char → Bool} :
    ∀ l : List Char, (∀ c ∈ l, p c = false) → l.dropWhile p = l
  | [], _ => rfl
  | c :: cs, h => by
      have hc : p c = false := h c (List.mem_cons_self c cs)
      simp [List.dropWhile_cons, hc]

theorem rustTrim_eq_self (l : List Char)
    (h : ∀ c ∈ l, rustIsWhitespace c = false) : rustTrim l = l := by
  unfold rustTrim
  rw [dropWhile_eq_self_of_not l h,
      dropWhile_eq_self_of_not l.reverse (fun c hc => h c (List.mem_reverse.mp hc)),
      List.reverse_reverse]

theorem utf8Len_append (a b : List Char) :
    utf8Len (a ++ b) = utf8Len a + utf8Len b := by
  simp [utf8Len]

theorem utf8Len_replicate (n : Nat) (c : Char) :
    utf8Len (List.replicate n c) = n * c.utf8Size := by
  simp [utf8Len, List.map_replicate, List.sum_replicate, smul_eq_mul]

theorem takeBytes_replicate_one (c : Char) (hc : c.utf8Size = 1) :
    ∀ (k : Nat) (rest : List Char) (n : Nat),
      takeBytes (List.replicate k c ++ rest) (n + k) =
        (takeBytes rest n).map (List.replicate k c ++ ·)
  | 0, rest, n => by
      cases h : takeBytes rest n <;> simp [h]
  | k + 1, rest, n => by
      have : n + (k + 1) = (n + k) + 1 := rfl
      rw [List.replicate_succ, List.cons_append, this]
      simp only [takeBytes, hc]
      rw [if_pos (by omega), Nat.add_sub_cancel,
          takeBytes_replicate_one c hc k rest n]
      cases h : takeBytes rest n <;> simp [h]

theorem lookupTip_setTip :
    ∀ (tips : List (String × Nat)) (name : String) (id v : Nat),
      lookupTip tips name = some v →
      lookupTip (setTip tips name id) name = some id
  | [], _, _, _, h => by simp [lookupTip] at h
  | (k, w) :: rest, name, id, v, h => by
      by_cases hk : k = name
      · subst hk
        simp [lookupTip, setTip, List.find?]
      · have hrest : lookupTip rest name = some v := by
          simpa [lookupTip, List.find?, hk] using h
        have ih := lookupTip_setTip rest name id v hrest
        simpa [lookupTip, setTip, List.find?, hk] using ih

theorem setTip_keys (tips : List (String × Nat)) (name : String) (id : Nat) :
    (setTip tips name id).map Prod.fst = tips.map Prod.fst := by
  induction tips with
  | nil => rfl
  | cons p rest ih =>
      show Prod.fst (if p.1 = name then (name, id) else p) ::
            (setTip rest name id).map Prod.fst = p.1 :: rest.map Prod.fst
      rw [ih]
      by_cases hp : p.1 = name
      · rw [if_pos hp, hp]
      · rw [if_neg hp]

theorem sessionBranchName_length (sid : String) (ts : Timestamp) :
    9 ≤ (sessionBranchName sid ts).length := by
  have h8 : ("session/" : String).length = 8 := by decide
  have h1 : ("_" : String).length = 1 := by decide
  simp only [sessionBranchName, String.length_append]
  omega

theorem sessionBranchName_ne_trunk (sid : String) (ts : Timestamp)
    (b : String) (hb : isTrunk b = true) : sessionBranchName sid ts ≠ b := by
  intro h
  have hlen := sessionBranchName_length sid ts
  rw [h] at hlen
  have : b = "main" ∨ b = "master" ∨ b = "develop" := by
    simp [isTrunk] at hb
    tauto
  rcases this with rfl | rfl | rfl <;> revert hlen <;> decide

/-! ## Claim theorems -/

/-- C1: on an all-ASCII staged diff of trimmed length 5001, the code
truncates to the first 5000 characters but appends the LITERAL four
characters `\\`, `n`, `\\`, `n` before `[... truncated ...]` — not the two
actual newline characters the claim requires — because the Rust format
string escapes the backslashes (`"{}\\n\\n[... truncated ...]"`).  The
first conjunct evaluates the code at the failing input; the second states
that the result differs from the claimed marker. -/
theorem c1_truncation_marker_is_literal_backslash_n :
    diffTrimTruncate (List.replicate 5001 'a') =
      some (List.replicate 5000 'a' ++ truncMarker) ∧
    diffTrimTruncate (List.replicate 5001 'a') ≠
      some (List.replicate 5000 'a' ++ newlineMarker) := by
  have hmem : ∀ c ∈ List.replicate 5001 'a', rustIsWhitespace c = false := by
    intro c hc
    rw [List.eq_of_mem_replicate hc]
    decide
  have htrim : rustTrim (List.replicate 5001 'a') = List.replicate 5001 'a' :=
    rustTrim_eq_self _ hmem
  have hsize : Char.utf8Size 'a' = 1 := by decide
  have hlen : utf8Len (List.replicate 5001 'a') = 5001 := by
    rw [utf8Len_replicate, hsize]
  have hsplit : List.replicate 5001 'a' =
      List.replicate 5000 'a' ++ List.replicate 1 'a' := by
    rw [← List.replicate_add]
  have htake : takeBytes (List.replicate 5001 'a') 5000 =
      some (List.replicate 5000 'a') := by
    rw [hsplit]
    have h := takeBytes_replicate_one 'a' hsize 5000 (List.replicate 1 'a') 0
    rw [Nat.zero_add] at h
    have h0 : takeBytes (List.replicate 1 'a') 0 = some [] := rfl
    rw [h0] at h
    rw [h, Option.map_some', List.append_nil]
  have hvalue : diffTrimTruncate (List.replicate 5001 'a') =
      some (List.replicate 5000 'a' ++ truncMarker) := by
    unfold diffTrimTruncate
    rw [htrim, hlen, if_pos (show (5000 : Nat) < 5001 by omega), htake,
        Option.map_some']
  refine ⟨hvalue, ?_⟩
  rw [hvalue]
  intro h
  have h2 := Option.some.inj h
  have h3 := List.append_cancel_left h2
  exact absurd h3 (by decide)

/-- C9: the truncation step of `get_staged_diff` is NOT total.  On a
trimmed diff of 4999 ASCII characters followed by two two-byte characters
(5003 bytes), byte index 5000 falls inside the first multi-byte character,
and the byte slice `&diff_text[..5000]` panics; in the embedding the
operation yields `none`. -/
theorem c9_truncation_panics_mid_character :
    diffTrimTruncate (List.replicate 4999 'a' ++ ['é', 'é']) = none := by
  have hmem : ∀ c ∈ List.replicate 4999 'a' ++ ['é', 'é'],
      rustIsWhitespace c = false := by
    intro c hc
    rcases List.mem_append.mp hc with h | h
    · rw [List.eq_of_mem_replicate h]; decide
    · have : c = 'é' ∨ c = 'é' := by simpa using h
      rcases this with rfl | rfl <;> decide
  have htrim := rustTrim_eq_self _ hmem
  have hsizea : Char.utf8Size 'a' = 1 := by decide
  have hlen : utf8Len (List.replicate 4999 'a' ++ ['é', 'é']) = 5003 := by
    rw [utf8Len_append, utf8Len_replicate, hsizea]
    have : utf8Len ['é', 'é'] = 4 := by decide
    rw [this]
  have htake : takeBytes (List.replicate 4999 'a' ++ ['é', 'é']) 5000 =
      none := by
    have h := takeBytes_replicate_one 'a' hsizea 4999 (['é', 'é']) 1
    have h2 : takeBytes ['é', 'é'] 1 = none := by decide
    rw [h2, Option.map_none'] at h
    have h3 : (1 + 4999 : Nat) = 5000 := by norm_num
    rw [h3] at h
    exact h
  unfold diffTrimTruncate
  rw [htrim, hlen, if_pos (show (5000 : Nat) < 5003 by omega), htake,
      Option.map_none']

theorem buildDiffText_eq_aux (lines : List DiffLine) :
    ∀ acc : List Char,
      List.foldl
        (fun acc l =>
          match utf8Decode? l.content with
          | some content =>
              acc ++ (if l.origin = '+' ∨ l.origin = '-' ∨ l.origin = ' '
                      then l.origin :: content else content)
          | none => acc)
        acc lines
      = acc ++ specLineRendering lines := by
  induction lines with
  | nil => intro acc; simp [specLineRendering]
  | cons l rest ih =>
      intro acc
      rw [List.foldl_cons]
      cases h : utf8Decode? l.content with
      | none =>
          simp only [h]
          rw [ih]
          simp [specLineRendering, List.filterMap_cons, renderLine, h]
      | some content =>
          simp only [h]
          rw [ih]
          simp [specLineRendering, List.filterMap_cons, renderLine, h,
                List.append_assoc]

/-- C10 (amended): the diff text `get_staged_diff` ASSEMBLES consists
exactly of the UTF-8-decodable lines in order — `+`/`-`/space lines
prefixed with their origin marker, other (metadata) lines unprefixed,
non-UTF-8 lines silently omitted; the string the function RETURNS is that
text after the final trim-and-truncate step. -/
theorem c10_diff_assembly (lines : List DiffLine) :
    buildDiffText lines = specLineRendering lines ∧
    get_staged_diff lines = diffTrimTruncate (specLineRendering lines) := by
  have h : buildDiffText lines = specLineRendering lines := by
    have := buildDiffText_eq_aux lines []
    simpa [buildDiffText] using this
  exact ⟨h, by rw [get_staged_diff, h]⟩

/-- C10 counterexample: for a staged diff consisting of one context line
`"x"`, the claim predicts the returned string `" x"` (the space origin
marker plus the content), but `get_staged_diff` trims the assembled text
and returns `"x"` — the returned string is not exactly the rendered
lines. -/
theorem c10_counterexample :
    get_staged_diff [⟨' ', [0x78]⟩] = some ['x'] ∧
    specLineRendering [⟨' ', [0x78]⟩] = [' ', 'x'] ∧
    get_staged_diff [⟨' ', [0x78]⟩] ≠
      some (specLineRendering [⟨' ', [0x78]⟩]) := by
  refine ⟨by decide, by decide, by decide⟩

/-- C4: `generate` returns the configured default message verbatim when
the external command fails to spawn, exits unsuccessfully, or produces
empty/whitespace-only stdout; on success with non-empty trimmed output
`m`, it returns `m` unchanged when the trimmed first line of `m` matches
`^[a-z]+:\s.+`, and otherwise the default message, two (real) newlines,
then `m`. -/
theorem c4_generate_contract (dmsg : List Char) (run : ExecResult) :
    (run = .spawnFailed → generate dmsg run = dmsg) ∧
    (∀ out, run = .ran out → out.success = false →
       generate dmsg run = dmsg) ∧
    (∀ out, run = .ran out → out.success = true → rustTrim out.stdout = [] →
       generate dmsg run = dmsg) ∧
    (∀ out, run = .ran out → out.success = true → rustTrim out.stdout ≠ [] →
       conventionalCommitMatch (rustTrim (firstLine (rustTrim out.stdout))) = true →
       generate dmsg run = rustTrim out.stdout) ∧
    (∀ out, run = .ran out → out.success = true → rustTrim out.stdout ≠ [] →
       conventionalCommitMatch (rustTrim (firstLine (rustTrim out.stdout))) = false →
       generate dmsg run = dmsg ++ '\n' :: '\n' :: rustTrim out.stdout) := by
  refine ⟨?_, ?_, ?_, ?_, ?_⟩
  · rintro rfl
    rfl
  · rintro out rfl hfail
    simp [generate, try_generate, hfail]
  · rintro out rfl hsucc hempty
    simp [generate, try_generate, hsucc, hempty]
  · rintro out rfl hsucc hne hmatch
    simp [generate, try_generate, hsucc, hne, hmatch]
  · rintro out rfl hsucc hne hmatch
    simp [generate, try_generate, hsucc, hne, hmatch]

/-- C4 witness: a successful run whose trimmed output starts with a
conventional-commit header is returned unchanged. -/
theorem c4_generate_contract_witness :
    generate "chore: auto commit".toList
      (.ran ⟨true, " fix: handle empty diff\n".toList⟩) =
    rustTrim " fix: handle empty diff\n".toList :=
  (c4_generate_contract "chore: auto commit".toList
    (.ran ⟨true, " fix: handle empty diff\n".toList⟩)).2.2.2.1
    ⟨true, " fix: handle empty diff\n".toList⟩ rfl rfl (by decide) (by decide)

/-- C5: a `PostToolUse` event whose tool is not `Edit`/`MultiEdit`/`Write`
or whose tool response is unsuccessful is a complete no-op: `handle_event`
performs no git operation (empty trace — no staging, no diff, no commit)
and returns the repository state unchanged. -/
theorem c5_posttooluse_noop (gen : List Char → List Char) (ts : Timestamp)
    (sid tp cwd : String) (tn : ToolName) (ti : ToolInput)
    (tr : ToolResponse)
    (h : isActingTool tn = false ∨ tr.success = false) (s : RepoState) :
    handle_event gen ts (.postToolUse sid tp cwd tn ti tr) s = (s, []) := by
  have hcond : (isActingTool tn && tr.success) = false := by
    rcases h with h | h <;> simp [h]
  simp [handle_event, hcond]

/-- C5 witness: a successful `Read` tool use changes nothing. -/
theorem c5_posttooluse_noop_witness :
    handle_event (fun d => d) exampleTimestamp
      (.postToolUse "sid" "tp" "/work" .read ⟨"/work/f.rs"⟩ ⟨true⟩)
      exampleState = (exampleState, []) :=
  c5_posttooluse_noop (fun d => d) exampleTimestamp "sid" "tp" "/work"
    .read ⟨"/work/f.rs"⟩ ⟨true⟩ (Or.inl (by decide)) exampleState

/-- C3: a `SessionStart` whose source is `clear`/`compact`/`resume`, on a
repository with stageable changes whose current branch is a trunk name,
creates exactly one commit, the commit operation occurs strictly before
the branch-creation operation in the trace, and after the run the branch
that was current before the switch points at the new commit. -/
theorem c3_commit_before_branch (gen : List Char → List Char)
    (ts : Timestamp) (sid tp cwd : String)
    (source : Option SessionStartSource) (s : RepoState)
    (hsrc : isSessionEndSource source = true)
    (hchanges : s.worktreeDiff ≠ [])
    (htrunk : isTrunk s.currentBranch = true)
    (hcur : lookupTip s.branchTips s.currentBranch = some s.headCommit) :
    ((handle_event gen ts (.sessionStart sid tp cwd source) s).2.filter
        (fun op => match op with | .commitOp _ => true | _ => false)).length
      = 1 ∧
    (∃ (i j : Nat) (m : List Char) (n : String), i < j ∧
      (handle_event gen ts (.sessionStart sid tp cwd source) s).2[i]? =
        some (GitOp.commitOp m) ∧
      (handle_event gen ts (.sessionStart sid tp cwd source) s).2[j]? =
        some (GitOp.branchOp n)) ∧
    lookupTip
      (handle_event gen ts (.sessionStart sid tp cwd source) s).1.branchTips
      s.currentBranch = some s.nextId ∧
    (handle_event gen ts (.sessionStart sid tp cwd source) s).1.nextId =
      s.nextId + 1 := by
  have hrun : handle_event gen ts (.sessionStart sid tp cwd source) s =
      (create_session_branch (create_commit (stage_all_files s)) sid ts,
       [.queryBranch, .setCwd cwd, .stageAll, .queryDiff, .queryDiff,
        .commitOp (gen s.worktreeDiff),
        .branchOp (sessionBranchName sid ts)]) := by
    simp [handle_event, get_current_branch, hsrc, htrunk, handle_session_end,
          stage_all_files, hchanges]
  rw [hrun]
  refine ⟨by rfl, ⟨5, 6, gen s.worktreeDiff, sessionBranchName sid ts,
    by decide, rfl, rfl⟩, ?_, rfl⟩
  show lookupTip ((sessionBranchName sid ts, (stage_all_files s).nextId) ::
    setTip (stage_all_files s).branchTips (stage_all_files s).currentBranch
      (stage_all_files s).nextId) s.currentBranch = some s.nextId
  have hne : sessionBranchName sid ts ≠ s.currentBranch :=
    sessionBranchName_ne_trunk sid ts s.currentBranch htrunk
  have hstep : lookupTip (setTip s.branchTips s.currentBranch s.nextId)
      s.currentBranch = some s.nextId :=
    lookupTip_setTip s.branchTips s.currentBranch s.nextId s.headCommit hcur
  simpa [lookupTip, List.find?, hne, stage_all_files] using hstep

/-- C3 witness: a `resume` session start on `main` with pending changes. -/
theorem c3_commit_before_branch_witness :
    (((handle_event (fun d => d) exampleTimestamp
        (.sessionStart "abc" "tp" "/work" (some .resume)) exampleState).2.filter
          (fun op => match op with | .commitOp _ => true | _ => false)).length
        = 1) ∧
    (∃ (i j : Nat) (m : List Char) (n : String), i < j ∧
      (handle_event (fun d => d) exampleTimestamp
        (.sessionStart "abc" "tp" "/work" (some .resume)) exampleState).2[i]? =
          some (GitOp.commitOp m) ∧
      (handle_event (fun d => d) exampleTimestamp
        (.sessionStart "abc" "tp" "/work" (some .resume)) exampleState).2[j]? =
          some (GitOp.branchOp n)) ∧
    lookupTip
      (handle_event (fun d => d) exampleTimestamp
        (.sessionStart "abc" "tp" "/work" (some .resume)) exampleState).1.branchTips
      exampleState.currentBranch = some exampleState.nextId ∧
    (handle_event (fun d => d) exampleTimestamp
      (.sessionStart "abc" "tp" "/work" (some .resume)) exampleState).1.nextId =
      exampleState.nextId + 1 :=
  c3_commit_before_branch (fun d => d) exampleTimestamp "abc" "tp" "/work"
    (some .resume) exampleState rfl (by decide) (by decide) (by decide)

/-- C6: on a `SessionStart` event a session branch is created and checked
out if and only if the current branch is a trunk name (`main`, `master`,
`develop`); the branch is named `session/{session_id}_{timestamp}`, is
based at the repository's head commit, and becomes current; on a non-trunk
current branch no branch is created (the set of branch names is
unchanged and the current branch stays). -/
theorem c6_branch_iff_trunk (gen : List Char → List Char) (ts : Timestamp)
    (sid tp cwd : String) (source : Option SessionStartSource)
    (s : RepoState) :
    ((∃ n, GitOp.branchOp n ∈
        (handle_event gen ts (.sessionStart sid tp cwd source) s).2) ↔
      isTrunk s.currentBranch = true) ∧
    (isTrunk s.currentBranch = true →
      (handle_event gen ts (.sessionStart sid tp cwd source) s).1.currentBranch
          = sessionBranchName sid ts ∧
      lookupTip
        (handle_event gen ts (.sessionStart sid tp cwd source) s).1.branchTips
        (sessionBranchName sid ts)
          = some (handle_event gen ts
              (.sessionStart sid tp cwd source) s).1.headCommit ∧
      GitOp.branchOp (sessionBranchName sid ts) ∈
        (handle_event gen ts (.sessionStart sid tp cwd source) s).2) ∧
    (isTrunk s.currentBranch = false →
      (handle_event gen ts (.sessionStart sid tp cwd source) s).1.branchTips.map
          Prod.fst = s.branchTips.map Prod.fst ∧
      (handle_event gen ts (.sessionStart sid tp cwd source) s).1.currentBranch
          = s.currentBranch) := by
  by_cases htrunk : isTrunk s.currentBranch = true
  · by_cases hsrc : isSessionEndSource source = true
    · by_cases hd : s.worktreeDiff = []
      · have hrun : handle_event gen ts (.sessionStart sid tp cwd source) s =
            (create_session_branch (stage_all_files s) sid ts,
             [.queryBranch, .setCwd cwd, .stageAll, .queryDiff,
              .branchOp (sessionBranchName sid ts)]) := by
          simp [handle_event, get_current_branch, hsrc, htrunk,
                handle_session_end, stage_all_files, hd]
        rw [hrun]
        refine ⟨⟨fun _ => htrunk, fun _ => ⟨sessionBranchName sid ts, by simp⟩⟩,
          ?_, fun hf => absurd htrunk (by simp [hf])⟩
        intro _
        refine ⟨rfl, ?_, by simp⟩
        simp [create_session_branch, lookupTip, List.find?, stage_all_files]
      · have hrun : handle_event gen ts (.sessionStart sid tp cwd source) s =
            (create_session_branch (create_commit (stage_all_files s)) sid ts,
             [.queryBranch, .setCwd cwd, .stageAll, .queryDiff, .queryDiff,
              .commitOp (gen s.worktreeDiff),
              .branchOp (sessionBranchName sid ts)]) := by
          simp [handle_event, get_current_branch, hsrc, htrunk,
                handle_session_end, stage_all_files, hd]
        rw [hrun]
        refine ⟨⟨fun _ => htrunk, fun _ => ⟨sessionBranchName sid ts, by simp⟩⟩,
          ?_, fun hf => absurd htrunk (by simp [hf])⟩
        intro _
        refine ⟨rfl, ?_, by simp⟩
        simp [create_session_branch, create_commit, lookupTip, List.find?,
              stage_all_files]
    · have hrun : handle_event gen ts (.sessionStart sid tp cwd source) s =
          (create_session_branch s sid ts,
           [.queryBranch, .branchOp (sessionBranchName sid ts)]) := by
        simp [handle_event, get_current_branch, hsrc, htrunk]
      rw [hrun]
      refine ⟨⟨fun _ => htrunk, fun _ => ⟨sessionBranchName sid ts, by simp⟩⟩,
        ?_, fun hf => absurd htrunk (by simp [hf])⟩
      intro _
      refine ⟨rfl, ?_, by simp⟩
      simp [create_session_branch, lookupTip, List.find?]
  · have htrunk' : isTrunk s.currentBranch = false := by
      simpa using htrunk
    by_cases hsrc : isSessionEndSource source = true
    · by_cases hd : s.worktreeDiff = []
      · have hrun : handle_event gen ts (.sessionStart sid tp cwd source) s =
            (stage_all_files s,
             [.queryBranch, .setCwd cwd, .stageAll, .queryDiff]) := by
          simp [handle_event, get_current_branch, hsrc, htrunk',
                handle_session_end, stage_all_files, hd]
        rw [hrun]
        refine ⟨⟨?_, fun ht => absurd ht (by simp [htrunk'])⟩,
          fun ht => absurd ht (by simp [htrunk']),
          fun _ => ⟨rfl, rfl⟩⟩
        rintro ⟨n, hn⟩
        simp at hn
      · have hrun : handle_event gen ts (.sessionStart sid tp cwd source) s =
            (create_commit (stage_all_files s),
             [.queryBranch, .setCwd cwd, .stageAll, .queryDiff, .queryDiff,
              .commitOp (gen s.worktreeDiff)]) := by
          simp [handle_event, get_current_branch, hsrc, htrunk',
                handle_session_end, stage_all_files, hd]
        rw [hrun]
        refine ⟨⟨?_, fun ht => absurd ht (by simp [htrunk'])⟩,
          fun ht => absurd ht (by simp [htrunk']),
          fun _ => ⟨?_, rfl⟩⟩
        · rintro ⟨n, hn⟩
          simp at hn
        · show (setTip s.branchTips s.currentBranch s.nextId).map Prod.fst =
            s.branchTips.map Prod.fst
          exact setTip_keys s.branchTips s.currentBranch s.nextId
    · have hrun : handle_event gen ts (.sessionStart sid tp cwd source) s =
          (s, [.queryBranch]) := by
        simp [handle_event, get_current_branch, hsrc, htrunk']
      rw [hrun]
      refine ⟨⟨?_, fun ht => absurd ht (by simp [htrunk'])⟩,
        fun ht => absurd ht (by simp [htrunk']),
        fun _ => ⟨rfl, rfl⟩⟩
      rintro ⟨n, hn⟩
      simp at hn

/-- C6 witness: a plain `startup` session start on `main` creates and
checks out the session branch. -/
theorem c6_branch_iff_trunk_witness :
    ((∃ n, GitOp.branchOp n ∈
        (handle_event (fun d => d) exampleTimestamp
          (.sessionStart "abc" "tp" "/work" none) exampleState).2) ↔
      isTrunk exampleState.currentBranch = true) ∧
    (isTrunk exampleState.currentBranch = true →
      (handle_event (fun d => d) exampleTimestamp
          (.sessionStart "abc" "tp" "/work" none) exampleState).1.currentBranch
          = sessionBranchName "abc" exampleTimestamp ∧
      lookupTip
        (handle_event (fun d => d) exampleTimestamp
          (.sessionStart "abc" "tp" "/work" none) exampleState).1.branchTips
        (sessionBranchName "abc" exampleTimestamp)
          = some (handle_event (fun d => d) exampleTimestamp
              (.sessionStart "abc" "tp" "/work" none) exampleState).1.headCommit ∧
      GitOp.branchOp (sessionBranchName "abc" exampleTimestamp) ∈
        (handle_event (fun d => d) exampleTimestamp
          (.sessionStart "abc" "tp" "/work" none) exampleState).2) ∧
    (isTrunk exampleState.currentBranch = false →
      (handle_event (fun d => d) exampleTimestamp
          (.sessionStart "abc" "tp" "/work" none) exampleState).1.branchTips.map
          Prod.fst = exampleState.branchTips.map Prod.fst ∧
      (handle_event (fun d => d) exampleTimestamp
          (.sessionStart "abc" "tp" "/work" none) exampleState).1.currentBranch
          = exampleState.currentBranch) :=
  c6_branch_iff_trunk (fun d => d) exampleTimestamp "abc" "tp" "/work" none
    exampleState

/-- C7: an acting `PostToolUse` (tool in `Edit`/`MultiEdit`/`Write` with a
successful response) stages exactly the path `resolvePath cwd file_path`:
for an absolute `file_path` under `cwd` that is the cwd-stripped relative
path, for an absolute path not under `cwd` the original string unchanged,
and for a relative path the path as-is. -/
theorem c7_staged_path_resolution (gen : List Char → List Char)
    (ts : Timestamp) (sid tp cwd : String) (tn : ToolName) (ti : ToolInput)
    (tr : ToolResponse) (s : RepoState)
    (hact : isActingTool tn = true) (hsucc : tr.success = true) :
    GitOp.stageFileOp (resolvePath cwd ti.file_path) ∈
      (handle_event gen ts (.postToolUse sid tp cwd tn ti tr) s).2 ∧
    (∀ p, GitOp.stageFileOp p ∈
        (handle_event gen ts (.postToolUse sid tp cwd tn ti tr) s).2 →
      p = resolvePath cwd ti.file_path) ∧
    (pathIsAbsolute ti.file_path = true →
      (∀ rel, stripPathBase cwd ti.file_path = some rel →
        resolvePath cwd ti.file_path = rel) ∧
      (stripPathBase cwd ti.file_path = none →
        resolvePath cwd ti.file_path = ti.file_path)) ∧
    (pathIsAbsolute ti.file_path = false →
      resolvePath cwd ti.file_path = ti.file_path) := by
  have hcond : (isActingTool tn && tr.success) = true := by
    simp [hact, hsucc]
  have hchar :
      (pathIsAbsolute ti.file_path = true →
        (∀ rel, stripPathBase cwd ti.file_path = some rel →
          resolvePath cwd ti.file_path = rel) ∧
        (stripPathBase cwd ti.file_path = none →
          resolvePath cwd ti.file_path = ti.file_path)) ∧
      (pathIsAbsolute ti.file_path = false →
        resolvePath cwd ti.file_path = ti.file_path) := by
    constructor
    · intro habs
      constructor
      · intro rel hrel
        simp [resolvePath, habs, hrel]
      · intro hrel
        simp [resolvePath, habs, hrel]
    · intro habs
      simp [resolvePath, habs]
  by_cases hd : s.fileDiff (resolvePath cwd ti.file_path) = []
  · have hrun : handle_event gen ts (.postToolUse sid tp cwd tn ti tr) s =
        (stage_file s (resolvePath cwd ti.file_path),
         [.setCwd cwd, .stageFileOp (resolvePath cwd ti.file_path),
          .queryDiff]) := by
      simp [handle_event, hcond, handle_file_commit, stage_file, hd]
    rw [hrun]
    refine ⟨by simp, ?_, hchar⟩
    intro p hp
    simp at hp
    exact hp
  · have hrun : handle_event gen ts (.postToolUse sid tp cwd tn ti tr) s =
        (create_commit (stage_file s (resolvePath cwd ti.file_path)),
         [.setCwd cwd, .stageFileOp (resolvePath cwd ti.file_path),
          .queryDiff,
          .commitOp (gen (s.fileDiff (resolvePath cwd ti.file_path)))]) := by
      simp [handle_event, hcond, handle_file_commit, stage_file, hd]
    rw [hrun]
    refine ⟨by simp, ?_, hchar⟩
    intro p hp
    simp at hp
    exact hp

/-- C7 witness: a successful `Write` of an absolute path under `cwd`
stages the cwd-relative path. -/
theorem c7_staged_path_resolution_witness :
    GitOp.stageFileOp (resolvePath "/work" "/work/src/a.rs") ∈
      (handle_event (fun d => d) exampleTimestamp
        (.postToolUse "sid" "tp" "/work" .write ⟨"/work/src/a.rs"⟩ ⟨true⟩)
        exampleState).2 ∧
    (∀ p, GitOp.stageFileOp p ∈
        (handle_event (fun d => d) exampleTimestamp
          (.postToolUse "sid" "tp" "/work" .write ⟨"/work/src/a.rs"⟩ ⟨true⟩)
          exampleState).2 →
      p = resolvePath "/work" "/work/src/a.rs") ∧
    (pathIsAbsolute "/work/src/a.rs" = true →
      (∀ rel, stripPathBase "/work" "/work/src/a.rs" = some rel →
        resolvePath "/work" "/work/src/a.rs" = rel) ∧
      (stripPathBase "/work" "/work/src/a.rs" = none →
        resolvePath "/work" "/work/src/a.rs" = "/work/src/a.rs")) ∧
    (pathIsAbsolute "/work/src/a.rs" = false →
      resolvePath "/work" "/work/src/a.rs" = "/work/src/a.rs") :=
  c7_staged_path_resolution (fun d => d) exampleTimestamp "sid" "tp" "/work"
    .write ⟨"/work/src/a.rs"⟩ ⟨true⟩ exampleState (by decide) rfl

/-- C2 counterexample: a well-formed `PostToolUse` object whose
`tool_name` is the unrecognized string `"CustomTool"` FAILS to decode —
`ToolName` has no fallback variant, so the claim that decoding succeeds
with an `Unknown` tool name is false. -/
theorem c2_counterexample :
    decodeHookEvent (.obj
      [("hook_event_name", .str "PostToolUse"),
       ("session_id", .str "s"), ("transcript_path", .str "t"),
       ("cwd", .str "/w"), ("tool_name", .str "CustomTool"),
       ("tool_input", .obj [("file_path", .str "/w/f.rs")]),
       ("tool_response", .obj [("success", .bool true)])]) = none := by
  decide

/-- C2 (amended): an unrecognized `source` string on `SessionStart`
decodes to `SessionStartSource.unknown` and never fails parsing; but
`ToolName` has no fallback variant, so a `PostToolUse` whose `tool_name`
holds any string outside the ten known names fails to decode as a
`HookEvent`. -/
theorem c2_unknown_enum_values (sid tp cwd v t fp : String)
    (hv : v ∉ ["clear", "compact", "resume", "startup"])
    (ht : t ∉ ["Task", "Bash", "Glob", "Grep", "Read", "Edit", "MultiEdit",
               "Write", "WebFetch", "WebSearch"]) :
    decodeHookEvent (.obj
      [("hook_event_name", .str "SessionStart"),
       ("session_id", .str sid), ("transcript_path", .str tp),
       ("cwd", .str cwd), ("source", .str v)])
      = some (.sessionStart sid tp cwd (some .unknown)) ∧
    decodeHookEvent (.obj
      [("hook_event_name", .str "PostToolUse"),
       ("session_id", .str sid), ("transcript_path", .str tp),
       ("cwd", .str cwd), ("tool_name", .str t),
       ("tool_input", .obj [("file_path", .str fp)]),
       ("tool_response", .obj [("success", .bool true)])]) = none := by
  simp only [List.mem_cons, List.mem_singleton, not_or] at hv ht
  obtain ⟨hv1, hv2, hv3, hv4, -⟩ := hv
  obtain ⟨ht1, ht2, ht3, ht4, ht5, ht6, ht7, ht8, ht9, ht10, -⟩ := ht
  constructor
  · simp [decodeHookEvent, getField, reqString, asString, decodeOptSource,
          decodeSource, hv1, hv2, hv3, hv4]
  · simp [decodeHookEvent, getField, reqString, asString, decodeToolName,
          ht1, ht2, ht3, ht4, ht5, ht6, ht7, ht8, ht9, ht10]

/-- C2 witness: the amended claim at the concrete unknown values
`"unknown_source_value"` and `"CodeSearch"`. -/
theorem c2_unknown_enum_values_witness :
    decodeHookEvent (.obj
      [("hook_event_name", .str "SessionStart"),
       ("session_id", .str "s"), ("transcript_path", .str "t"),
       ("cwd", .str "/w"), ("source", .str "unknown_source_value")])
      = some (.sessionStart "s" "t" "/w" (some .unknown)) ∧
    decodeHookEvent (.obj
      [("hook_event_name", .str "PostToolUse"),
       ("session_id", .str "s"), ("transcript_path", .str "t"),
       ("cwd", .str "/w"), ("tool_name", .str "CodeSearch"),
       ("tool_input", .obj [("file_path", .str "/w/f.rs")]),
       ("tool_response", .obj [("success", .bool true)])]) = none :=
  c2_unknown_enum_values "s" "t" "/w" "unknown_source_value" "CodeSearch"
    "/w/f.rs" (by decide) (by decide)

/-- C8: both `HookEvent` variants require a `transcript_path` field and a
`session_id` field beyond what the spec's data model lists: an object
tagged `SessionStart` lacking `transcript_path`, or one tagged
`PostToolUse` lacking `transcript_path` or `session_id`, fails to decode,
and `main` then treats the whole raw input as diff content in the
fallback message-generation mode. -/
theorem c8_undocumented_required_fields (fs : List (String × Json))
    (raw : String) :
    (getField fs "hook_event_name" = some (.str "SessionStart") →
     getField fs "transcript_path" = none →
     decodeHookEvent (.obj fs) = none ∧
     mainMode raw (some (.obj fs)) = .fallback raw) ∧
    (getField fs "hook_event_name" = some (.str "PostToolUse") →
     getField fs "transcript_path" = none →
     decodeHookEvent (.obj fs) = none ∧
     mainMode raw (some (.obj fs)) = .fallback raw) ∧
    (getField fs "hook_event_name" = some (.str "PostToolUse") →
     getField fs "session_id" = none →
     decodeHookEvent (.obj fs) = none ∧
     mainMode raw (some (.obj fs)) = .fallback raw) := by
  refine ⟨?_, ?_, ?_⟩
  · intro htag hmiss
    have hdec : decodeHookEvent (.obj fs) = none := by
      simp only [decodeHookEvent, htag]
      cases hsid : reqString fs "session_id" <;>
        simp [hsid, reqString, hmiss]
    exact ⟨hdec, by simp [mainMode, hdec]⟩
  · intro htag hmiss
    have hdec : decodeHookEvent (.obj fs) = none := by
      simp only [decodeHookEvent, htag]
      cases hsid : reqString fs "session_id" <;>
        simp [hsid, reqString, hmiss]
    exact ⟨hdec, by simp [mainMode, hdec]⟩
  · intro htag hmiss
    have hdec : decodeHookEvent (.obj fs) = none := by
      simp only [decodeHookEvent, htag]
      simp [reqString, hmiss]
    exact ⟨hdec, by simp [mainMode, hdec]⟩

/-- C8 witness: a `SessionStart` object with `session_id` and `cwd` but no
`transcript_path`, and a `PostToolUse` object with everything but
`session_id`, both fall back. -/
theorem c8_undocumented_required_fields_witness :
    (decodeHookEvent (.obj
        [("hook_event_name", .str "SessionStart"),
         ("session_id", .str "s"), ("cwd", .str "/w")]) = none ∧
     mainMode "raw input" (some (.obj
        [("hook_event_name", .str "SessionStart"),
         ("session_id", .str "s"), ("cwd", .str "/w")]))
       = .fallback "raw input") ∧
    (decodeHookEvent (.obj
        [("hook_event_name", .str "PostToolUse"),
         ("transcript_path", .str "t"), ("cwd", .str "/w"),
         ("tool_name", .str "Write"),
         ("tool_input", .obj [("file_path", .str "/w/f.rs")]),
         ("tool_response", .obj [])]) = none ∧
     mainMode "raw input" (some (.obj
        [("hook_event_name", .str "PostToolUse"),
         ("transcript_path", .str "t"), ("cwd", .str "/w"),
         ("tool_name", .str "Write"),
         ("tool_input", .obj [("file_path", .str "/w/f.rs")]),
         ("tool_response", .obj [])]))
       = .fallback "raw input") :=
  ⟨(c8_undocumented_required_fields
      [("hook_event_name", .str "SessionStart"),
       ("session_id", .str "s"), ("cwd", .str "/w")] "raw input").1
    rfl rfl,
   (c8_undocumented_required_fields
      [("hook_event_name", .str "PostToolUse"),
       ("transcript_path", .str "t"), ("cwd", .str "/w"),
       ("tool_name", .str "Write"),
       ("tool_input", .obj [("file_path", .str "/w/f.rs")]),
       ("tool_response", .obj [])] "raw input").2.2
    rfl rfl⟩

end AutoCommit
